import Mathlib

set_option linter.unusedVariables false

/-!
Verification of the gorm-adapter policy store (repository Anzimu/gorm-adapter).

The development shallowly embeds the Go source under `src/`:
* `CasbinRule` is the row struct of `src/adapter.go` (the store-assigned
  auto-increment `ID` column is not modelled: no predicate, codec or mutation in
  the source ever reads or writes it; the `ORDER BY id` of full loads is
  represented by the order of the row list handed to `loadPolicy`).
* Pure Go functions become Lean functions; the database table becomes an
  explicit `List CasbinRule` threaded through the mutation operations; Go
  `error` returns become `Option Err` / `Except Err`; a Go panic (out-of-range
  index) becomes `Option.none`.
* Store failures that originate in the external database engine (a failing
  bulk INSERT, a failing per-row DELETE, a failing COMMIT) are supplied by
  explicit oracle arguments (`Option Err` values or `Nat → Option Err`
  functions), since the engine itself is an external collaborator.
-/

namespace GormAdapter

/-- Error values surfaced by the adapter.  `ctxWithoutDB` embeds the dedicated
`CtxWithoutDBError` of `src/context_adapter.go`; `queryFieldEmpty` embeds the
validation error of `checkQueryField` in `src/adapter.go`; `uniqueViolation`
is the store's composite-unique-index violation; `store k` stands for an
arbitrary error returned by the underlying database engine. -/
inductive Err where
  | ctxWithoutDB : Err
  | queryFieldEmpty : Err
  | uniqueViolation : Err
  | store : Nat → Err
deriving DecidableEq

/-- Row shape of the `casbin_rule` table (`CasbinRule` in `src/adapter.go`):
a rule-type tag and eight value slots, empty string meaning "slot unused". -/
structure CasbinRule where
  Ptype : String
  V0 : String
  V1 : String
  V2 : String
  V3 : String
  V4 : String
  V5 : String
  V6 : String
  V7 : String
deriving DecidableEq

/-- Default (all-empty) row, as produced by `getTableInstance` in
`src/adapter.go`. -/
def dfltRule : CasbinRule := ⟨"", "", "", "", "", "", "", "", ""⟩

/-- The slice `p = []string{line.Ptype, line.V0, ..., line.V7}` built at the
start of `loadPolicyLine` (`src/adapter.go` lines 437-440) and of `Preview`
(lines 715-718). -/
def toStrings (r : CasbinRule) : List String :=
  [r.Ptype, r.V0, r.V1, r.V2, r.V3, r.V4, r.V5, r.V6, r.V7]

/-- The table used by the adapter (one `List` per table); the store's state. -/
abbrev Store := List CasbinRule

/-- The policy engine's model as seen through the interface of spec §6: an
ordered collection of rule tuples (each tuple starts with its type tag)
together with a membership test.  The engine itself is an external
collaborator, not code of this repository. -/
abbrev Model := List (List String)

/-- External collaborator operation (spec §6): appending one decoded tuple to
the engine model, as `persist.LoadPolicyArray` does.  De-duplication is not
performed here; it is the job of the adapter's `Preview` pass. -/
def loadPolicyArray (m : Model) (p : List String) : Model := m ++ [p]

/-- Encoder `savePolicyLine` (`src/adapter.go` lines 504-534): starting from
the all-empty row, assign `rule[i]` to slot `Vi` whenever `i < len(rule)`;
values beyond index 7 are silently dropped. -/
def savePolicyLine (ptype : String) (rule : List String) : CasbinRule :=
  { Ptype := ptype
    V0 := if 0 < rule.length then rule.getD 0 "" else ""
    V1 := if 1 < rule.length then rule.getD 1 "" else ""
    V2 := if 2 < rule.length then rule.getD 2 "" else ""
    V3 := if 3 < rule.length then rule.getD 3 "" else ""
    V4 := if 4 < rule.length then rule.getD 4 "" else ""
    V5 := if 5 < rule.length then rule.getD 5 "" else ""
    V6 := if 6 < rule.length then rule.getD 6 "" else ""
    V7 := if 7 < rule.length then rule.getD 7 "" else ""
  }

/-- The descending trim loop `for p[index] == "" { index-- }` shared verbatim
by `loadPolicyLine` (`src/adapter.go` line 443) and `Preview` (line 720).
`lastIndexNE l i` scans `l` downwards from position `i` and returns the first
position holding a non-empty string.  In Go the loop has no lower bound: when
every scanned entry is empty the next probe indexes position `-1` and panics;
that panic is embedded as `none`. -/
def lastIndexNE (l : List String) : Nat → Option Nat
  | 0 => if l.getD 0 "" = "" then none else some 0
  | i + 1 => if l.getD (i + 1) "" = "" then lastIndexNE l i else some (i + 1)

/-- Decoding trim applied to an arbitrary string list `p`:
`index := len(p)-1; for p[index] == "" { index-- }; p = p[:index+1]`.
`none` embeds the index `-1` panic. -/
def decodeList (l : List String) : Option (List String) :=
  match lastIndexNE l (l.length - 1) with
  | none => none
  | some i => some (l.take (i + 1))

/-- Row → tuple decoding performed inside `loadPolicyLine`
(`src/adapter.go` lines 436-447): build the 9-slot string list and trim the
trailing empty slots; `none` embeds the panic on an all-empty row. -/
def decodeLine (r : CasbinRule) : Option (List String) :=
  match lastIndexNE (toStrings r) 8 with
  | none => none
  | some i => some ((toStrings r).take (i + 1))

/-- Reference form of the decoder's trimming: remove all trailing empty
strings (the spec's `trimTrailingEmpty`). -/
def trimTrailingEmpty (l : List String) : List String :=
  (l.reverse.dropWhile (fun s => decide (s = ""))).reverse

/-- Full `loadPolicyLine` (`src/adapter.go` lines 436-453): decode the row and
hand the tuple to the engine via `persist.LoadPolicyArray`. -/
def loadPolicyLine (line : CasbinRule) (m : Model) : Option Model :=
  match decodeLine line with
  | none => none
  | some p => some (loadPolicyArray m p)

lemma decodeLine_eq_decodeList (r : CasbinRule) :
    decodeLine r = decodeList (toStrings r) := rfl

lemma getD_append_lt {α : Type} (l l₂ : List α) (d : α) :
    ∀ n, n < l.length → (l ++ l₂).getD n d = l.getD n d := by
  induction l with
  | nil => intro n h; simp at h
  | cons a l ih =>
    intro n h
    cases n with
    | zero => rfl
    | succ n =>
      show (l ++ l₂).getD n d = l.getD n d
      exact ih n (by simpa using h)

lemma getD_append_cons {α : Type} (xs zs : List α) (y d : α) :
    (xs ++ y :: zs).getD xs.length d = y := by
  induction xs with
  | nil => rfl
  | cons a xs ih => exact ih

lemma set_append_cons {α : Type} (xs zs : List α) (y v : α) :
    (xs ++ y :: zs).set xs.length v = xs ++ v :: zs := by
  induction xs with
  | nil => rfl
  | cons a xs ih => simp only [List.cons_append, List.length_cons, List.set_cons_succ, ih]

lemma lastIndexNE_append_lt (l l₂ : List String) :
    ∀ n, n < l.length → lastIndexNE (l ++ l₂) n = lastIndexNE l n := by
  intro n
  induction n with
  | zero =>
    intro h
    simp only [lastIndexNE]
    rw [getD_append_lt l l₂ "" 0 h]
  | succ n ih =>
    intro h
    simp only [lastIndexNE]
    rw [getD_append_lt l l₂ "" (n + 1) h, ih (Nat.lt_of_succ_lt h)]

lemma lastIndexNE_le (l : List String) :
    ∀ n i, lastIndexNE l n = some i → i ≤ n := by
  intro n
  induction n with
  | zero =>
    intro i h
    simp only [lastIndexNE] at h
    by_cases hc : l.getD 0 "" = ""
    · rw [if_pos hc] at h; exact absurd h (by simp)
    · rw [if_neg hc] at h; injection h with h'; omega
  | succ n ih =>
    intro i h
    simp only [lastIndexNE] at h
    by_cases hc : l.getD (n + 1) "" = ""
    · rw [if_pos hc] at h; exact Nat.le_succ_of_le (ih i h)
    · rw [if_neg hc] at h; injection h with h'; omega

lemma trim_append_ne (l : List String) (x : String) (hx : x ≠ "") :
    trimTrailingEmpty (l ++ [x]) = l ++ [x] := by
  simp [trimTrailingEmpty, List.dropWhile_cons, hx]

lemma trim_append_empty (l : List String) :
    trimTrailingEmpty (l ++ [""]) = trimTrailingEmpty l := by
  simp [trimTrailingEmpty, List.dropWhile_cons]

lemma lastIndexNE_append_last_ne (l : List String) (x : String) (hx : x ≠ "") :
    lastIndexNE (l ++ [x]) l.length = some l.length := by
  cases l with
  | nil =>
    have hne : ¬(([x].getD 0 "") = "") := hx
    simp only [List.nil_append, List.length_nil, lastIndexNE]
    rw [if_neg hne]
  | cons a l' =>
    have hgd : ((a :: l') ++ [x]).getD (l'.length + 1) "" = x :=
      getD_append_cons (a :: l') [] x ""
    have hne : ¬(((a :: l') ++ [x]).getD (l'.length + 1) "" = "") := by
      rw [hgd]; exact hx
    show lastIndexNE ((a :: l') ++ [x]) (l'.length + 1) = some (l'.length + 1)
    simp only [lastIndexNE]
    rw [if_neg hne]

lemma lastIndexNE_append_last_empty (a : String) (l' : List String) :
    lastIndexNE ((a :: l') ++ [""]) (l'.length + 1) = lastIndexNE (a :: l') l'.length := by
  have hgd : ((a :: l') ++ [""]).getD (l'.length + 1) "" = "" :=
    getD_append_cons (a :: l') [] "" ""
  simp only [lastIndexNE]
  rw [if_pos hgd, lastIndexNE_append_lt (a :: l') [""] l'.length (by simp)]

lemma decodeList_append_ne (l : List String) (x : String) (hx : x ≠ "") :
    decodeList (l ++ [x]) = some (l ++ [x]) := by
  have h := lastIndexNE_append_last_ne l x hx
  have hlen : (l ++ [x]).length - 1 = l.length := by simp
  simp only [decodeList, hlen, h]
  have : (l ++ [x]).take (l.length + 1) = l ++ [x] := by
    apply List.take_of_length_le; simp
  rw [this]

lemma decodeList_append_empty (l : List String) :
    decodeList (l ++ [""]) = decodeList l := by
  cases l with
  | nil => rfl
  | cons a l' =>
    have hlen : ((a :: l') ++ [""]).length - 1 = l'.length + 1 := by simp
    have hlen' : (a :: l').length - 1 = l'.length := by simp
    simp only [decodeList, hlen, hlen', lastIndexNE_append_last_empty a l']
    rcases hres : lastIndexNE (a :: l') l'.length with _ | i
    · rfl
    · have hile : i ≤ l'.length := lastIndexNE_le _ _ _ hres
      have htake : ((a :: l') ++ [""]).take (i + 1) = (a :: l').take (i + 1) := by
        rw [List.take_append_eq_append_take]
        have h0 : i + 1 - (a :: l').length = 0 := by
          rw [List.length_cons]; omega
        simp only [h0, List.take_zero, List.append_nil]
      show some (((a :: l') ++ [""]).take (i + 1)) = some ((a :: l').take (i + 1))
      rw [htake]

/-- Characterisation of the descending trim loop: on a list that is not
entirely empty it returns exactly the trailing-empty-trimmed prefix, and on an
all-empty list it runs off the bottom (the Go panic). -/
lemma decodeList_spec (l : List String) :
    decodeList l =
      if l.all (fun s => decide (s = "")) then none
      else some (trimTrailingEmpty l) := by
  induction l using List.reverseRecOn with
  | nil => rfl
  | append_singleton l x ih =>
    by_cases hx : x = ""
    · subst hx
      rw [decodeList_append_empty, trim_append_empty, ih]
      simp [List.all_append]
    · rw [decodeList_append_ne l x hx, trim_append_ne l x hx]
      simp [List.all_append, hx]

/-- A row whose type column is non-empty always decodes. -/
lemma decodeLine_isSome_of_ptype {r : CasbinRule} (h : r.Ptype ≠ "") :
    (decodeLine r).isSome := by
  rw [decodeLine_eq_decodeList, decodeList_spec]
  simp [toStrings, h]

lemma toStrings_savePolicyLine (t : String) (vs : List String) (h : vs.length ≤ 8) :
    toStrings (savePolicyLine t vs) = t :: (vs ++ List.replicate (8 - vs.length) "") := by
  rcases vs with _ | ⟨a, _ | ⟨b, _ | ⟨c, _ | ⟨d, _ | ⟨e, _ | ⟨f, _ | ⟨g, _ | ⟨h8, _ | ⟨i, rest⟩⟩⟩⟩⟩⟩⟩⟩⟩ <;>
    first
      | rfl
      | (exfalso; simp only [List.length_cons] at h; omega)

lemma trim_append_replicate (l : List String) (k : Nat) :
    trimTrailingEmpty (l ++ List.replicate k "") = trimTrailingEmpty l := by
  induction k generalizing l with
  | zero => simp
  | succ k ih =>
    rw [List.replicate_succ, ← List.singleton_append, ← List.append_assoc,
      ih (l ++ [""]), trim_append_empty]

/-- C2: for every rule tuple of length 1 to 9 (non-empty type tag plus at most
8 values), encoding with `savePolicyLine` and decoding with `loadPolicyLine`
returns the tuple with all trailing empty strings removed. -/
theorem rule_roundtrip (t : String) (vs : List String) (ht : t ≠ "")
    (hlen : vs.length ≤ 8) :
    decodeLine (savePolicyLine t vs) = some (trimTrailingEmpty (t :: vs)) ∧
    ∀ m : Model,
      loadPolicyLine (savePolicyLine t vs) m
        = some (m ++ [trimTrailingEmpty (t :: vs)]) := by
  have hdec : decodeLine (savePolicyLine t vs) = some (trimTrailingEmpty (t :: vs)) := by
    rw [decodeLine_eq_decodeList, toStrings_savePolicyLine t vs hlen, decodeList_spec]
    have hall :
        ((t :: (vs ++ List.replicate (8 - vs.length) "")).all
          (fun s => decide (s = ""))) = false := by
      simp [ht]
    rw [hall]
    simp only [Bool.false_eq_true, if_false]
    rw [← List.cons_append, trim_append_replicate]
  exact ⟨hdec, fun m => by rw [loadPolicyLine, hdec]; rfl⟩

/-- Witness for `rule_roundtrip` at the concrete tuple `p, alice, data1, read`. -/
theorem rule_roundtrip_witness :
    ("p" : String) ≠ "" ∧
    ([("alice" : String), "data1", "read"].length ≤ 8) ∧
    decodeLine (savePolicyLine "p" ["alice", "data1", "read"])
      = some (trimTrailingEmpty ["p", "alice", "data1", "read"]) :=
  ⟨by decide, by decide,
    (rule_roundtrip "p" ["alice", "data1", "read"] (by decide) (by decide)).1⟩

/-- The membership branch of the loop body of `Preview`
(`src/adapter.go` line 727): `model.HasPolicyEx(sec, key, p[1:])` with
`key = p[0]` and `sec = key[:1]`; with the engine model abstracted to its
ordered collection of full rule tuples (spec §6), this is membership of the
decoded tuple.  `presB m r` is true when row `r` decodes to a tuple the model
already contains. -/
def presB (m : Model) (r : CasbinRule) : Bool :=
  match decodeLine r with
  | some p => decide (p ∈ m)
  | none => false

/-- Negation of `presB` on decodable rows: the row survives the pre-check. -/
def keepB (m : Model) (r : CasbinRule) : Bool :=
  match decodeLine r with
  | some p => !decide (p ∈ m)
  | none => false

/-- Loop of `Preview` (`src/adapter.go` lines 713-735) over the fetched rows:
`j` counts rows found to be already present; such a row is swap-moved to
position `j` (`(*rules)[j], (*rules)[i] = rule, (*rules)[j]`).  A row that
fails to decode makes the source panic, embedded as `none`. -/
def previewLoop (m : Model) (rs : List CasbinRule) (i j : Nat) :
    Option (List CasbinRule × Nat) :=
  if h : i < rs.length then
    match decodeLine (rs.getD i dfltRule) with
    | none => none
    | some p =>
      if p ∈ m then
        previewLoop m ((rs.set j (rs.getD i dfltRule)).set i (rs.getD j dfltRule))
          (i + 1) (j + 1)
      else
        previewLoop m rs (i + 1) j
  else
    some (rs, j)
termination_by rs.length - i
decreasing_by
  · simp only [List.length_set]; omega
  · omega

/-- `Preview` (`src/adapter.go` lines 711-738): after the loop the slice is
re-sliced to `(*rules)[j:]`, dropping the rows already present in the model
and keeping the rest for loading. -/
def Preview (m : Model) (rules : List CasbinRule) : Option (List CasbinRule) :=
  match previewLoop m rules 0 0 with
  | none => none
  | some (rs, j) => some (rs.drop j)

/-- Full load `loadPolicy` (`src/internal_func.go` lines 11-28): the rows
fetched `ORDER BY id` are given as the input list; `Preview` discards rows
whose tuples the model already has, then each surviving row is decoded and
appended to the model by `loadPolicyLine`. -/
def loadPolicy (rows : List CasbinRule) (m : Model) : Option Model :=
  match Preview m rows with
  | none => none
  | some kept => kept.foldlM (fun acc r => loadPolicyLine r acc) m

/-- C10: row decoding is total only when the type column is non-empty.  The
trim loops of `loadPolicyLine` and `Preview` decrement without a lower bound:
on the all-empty row they index position `-1` (embedded as `none`, the Go
panic) instead of producing a tuple or an error, while every row with a
non-empty `ptype` decodes to `some` tuple. -/
theorem decode_partiality :
    decodeLine dfltRule = none ∧
    (∀ m : Model, loadPolicyLine dfltRule m = none) ∧
    (∀ m : Model, Preview m [dfltRule] = none) ∧
    (∀ r : CasbinRule, r.Ptype ≠ "" → (decodeLine r).isSome) := by
  refine ⟨rfl, fun m => rfl, fun m => ?_, fun r h => decodeLine_isSome_of_ptype h⟩
  rw [Preview, previewLoop]
  rfl

/-- Witness for `decode_partiality`: the hypothesis-bearing conjunct applied
to a concrete row with non-empty type column. -/
theorem decode_partiality_witness :
    decodeLine dfltRule = none ∧
    (decodeLine ⟨"p", "alice", "", "", "", "", "", "", ""⟩).isSome :=
  ⟨decode_partiality.1,
    decode_partiality.2.2.2 ⟨"p", "alice", "", "", "", "", "", "", ""⟩ (by decide)⟩

lemma keepB_eq_true {m : Model} {r : CasbinRule} {p : List String}
    (hp : decodeLine r = some p) (hm : p ∉ m) : keepB m r = true := by
  simp [keepB, hp, hm]

lemma keepB_eq_false {m : Model} {r : CasbinRule} {p : List String}
    (hp : decodeLine r = some p) (hm : p ∈ m) : keepB m r = false := by
  simp [keepB, hp, hm]

lemma presB_eq_true {m : Model} {r : CasbinRule} {p : List String}
    (hp : decodeLine r = some p) (hm : p ∈ m) : presB m r = true := by
  simp [presB, hp, hm]

lemma presB_eq_false {m : Model} {r : CasbinRule} {p : List String}
    (hp : decodeLine r = some p) (hm : p ∉ m) : presB m r = false := by
  simp [presB, hp, hm]

/-- Partition invariant of the `Preview` loop: processing the remaining rows
`rest` with a prefix `P` of already-present rows and a middle segment `A` of
already-kept rows leaves `P` extended (in order) by the present rows of
`rest`, with the kept segment a permutation of `A` plus the kept rows of
`rest`. -/
lemma previewLoop_inv (m : Model) :
    ∀ (rest P A : List CasbinRule),
      (∀ r ∈ rest, (decodeLine r).isSome) →
      ∃ A2 : List CasbinRule,
        List.Perm A2 (A ++ rest.filter (keepB m)) ∧
        previewLoop m (P ++ A ++ rest) (P.length + A.length) P.length
          = some (P ++ rest.filter (presB m) ++ A2,
                  P.length + (rest.filter (presB m)).length) := by
  intro rest
  induction rest with
  | nil =>
    intro P A _
    refine ⟨A, by simp, ?_⟩
    rw [previewLoop]
    have hlen : ¬ (P.length + A.length < (P ++ A ++ ([] : List CasbinRule)).length) := by
      simp
    rw [dif_neg hlen]
    simp
  | cons r rest ih =>
    intro P A hdec
    obtain ⟨p, hp⟩ := Option.isSome_iff_exists.mp (hdec r (by simp))
    have hdec' : ∀ x ∈ rest, (decodeLine x).isSome := fun x hx => hdec x (by simp [hx])
    have hlt : P.length + A.length < (P ++ A ++ r :: rest).length := by
      simp [List.length_append]
    have hget : (P ++ A ++ r :: rest).getD (P.length + A.length) dfltRule = r := by
      have h := getD_append_cons (P ++ A) rest r dfltRule
      rwa [List.length_append] at h
    rw [previewLoop, dif_pos hlt, hget]
    simp only [hp]
    by_cases hm : p ∈ m
    · -- row already present: swap to position j, then j+1
      rw [if_pos hm]
      have hpres : presB m r = true := presB_eq_true hp hm
      have hkeep : keepB m r = false := keepB_eq_false hp hm
      cases A with
      | nil =>
        have hgj : (P ++ [] ++ r :: rest).getD P.length dfltRule = r := by
          simpa using getD_append_cons P rest r dfltRule
        have hset : ((P ++ [] ++ r :: rest).set P.length r).set
              (P.length + List.length ([] : List CasbinRule)) r
            = P ++ [r] ++ [] ++ rest := by
          simp only [List.append_nil, List.length_nil, Nat.add_zero]
          rw [set_append_cons P rest r r, set_append_cons P rest r r]
          simp
        obtain ⟨A2, hA2, heq⟩ := ih (P ++ [r]) [] hdec'
        refine ⟨A2, ?_, ?_⟩
        · simpa [List.filter_cons, hkeep] using hA2
        · rw [hgj, hset]
          have hidx : P.length + List.length ([] : List CasbinRule) + 1
              = (P ++ [r]).length + List.length ([] : List CasbinRule) := by simp
          have hjdx : P.length + 1 = (P ++ [r]).length := by simp
          rw [hidx, hjdx, heq]
          have haux : List.filter (presB m) (r :: rest) = r :: List.filter (presB m) rest := by
            simp [List.filter_cons, hpres]
          rw [haux]
          refine congrArg some ?_
          simp only [Prod.mk.injEq]
          refine ⟨by simp, ?_⟩
          simp only [List.length_append, List.length_cons, List.length_nil]
          omega
      | cons a A' =>
        have e1 : P ++ (a :: A') ++ r :: rest = P ++ a :: (A' ++ r :: rest) := by simp
        have hgj : (P ++ (a :: A') ++ r :: rest).getD P.length dfltRule = a := by
          rw [e1]; exact getD_append_cons P (A' ++ r :: rest) a dfltRule
        have hset : ((P ++ (a :: A') ++ r :: rest).set P.length r).set
              (P.length + (a :: A').length) a
            = P ++ [r] ++ (A' ++ [a]) ++ rest := by
          rw [e1, set_append_cons P (A' ++ r :: rest) a r]
          have e2 : P ++ r :: (A' ++ r :: rest) = P ++ r :: A' ++ r :: rest := by simp
          rw [e2]
          have e3 : P.length + (a :: A').length = (P ++ r :: A').length := by
            simp only [List.length_append, List.length_cons]
          rw [e3, set_append_cons (P ++ r :: A') rest r a]
          simp
        obtain ⟨A2, hA2, heq⟩ := ih (P ++ [r]) (A' ++ [a]) hdec'
        refine ⟨A2, ?_, ?_⟩
        · refine hA2.trans ?_
          refine (List.Perm.append_right _ (List.perm_append_singleton a A')).trans ?_
          simp [List.filter_cons, hkeep]
        · rw [hgj, hset]
          have hidx : P.length + (a :: A').length + 1
              = (P ++ [r]).length + (A' ++ [a]).length := by
            simp only [List.length_append, List.length_cons, List.length_nil]
            omega
          have hjdx : P.length + 1 = (P ++ [r]).length := by simp
          rw [hidx, hjdx, heq]
          have haux : List.filter (presB m) (r :: rest) = r :: List.filter (presB m) rest := by
            simp [List.filter_cons, hpres]
          rw [haux]
          refine congrArg some ?_
          simp only [Prod.mk.injEq]
          refine ⟨by simp, ?_⟩
          simp only [List.length_append, List.length_cons, List.length_nil]
          omega
    · -- row absent from the model: keep it in place
      rw [if_neg hm]
      have hpres : presB m r = false := presB_eq_false hp hm
      have hkeep : keepB m r = true := keepB_eq_true hp hm
      obtain ⟨A2, hA2, heq⟩ := ih P (A ++ [r]) hdec'
      refine ⟨A2, ?_, ?_⟩
      · refine hA2.trans ?_
        simp [List.filter_cons, hkeep]
      · have hlist : P ++ A ++ r :: rest = P ++ (A ++ [r]) ++ rest := by simp
        have hidx : P.length + A.length + 1 = P.length + (A ++ [r]).length := by
          simp only [List.length_append, List.length_cons, List.length_nil]
          omega
        rw [hlist, hidx, heq]
        have haux : List.filter (presB m) (r :: rest) = List.filter (presB m) rest := by
          simp [List.filter_cons, hpres]
        rw [haux]

/-- The pre-check pass keeps (as a permutation, per the source's swap-removal)
exactly the rows whose decoded tuple is absent from the model. -/
lemma Preview_spec (m : Model) (rows : List CasbinRule)
    (hdec : ∀ r ∈ rows, (decodeLine r).isSome) :
    ∃ kept, Preview m rows = some kept ∧
      List.Perm kept (rows.filter (keepB m)) := by
  obtain ⟨A2, hA2, heq⟩ := previewLoop_inv m rows [] []
    (by intro r hr; exact hdec r hr)
  simp only [List.nil_append, List.length_nil, Nat.zero_add, Nat.add_zero] at heq
  refine ⟨A2, ?_, by simpa using hA2⟩
  rw [Preview, heq]
  simp only [List.append_nil]
  rw [List.drop_left]

lemma foldl_loadPolicyLine (kept : List CasbinRule) :
    ∀ m : Model, (∀ r ∈ kept, (decodeLine r).isSome) →
      kept.foldlM (fun acc r => loadPolicyLine r acc) m
        = some (m ++ kept.filterMap decodeLine) := by
  induction kept with
  | nil => intro m _; simp
  | cons r rest ih =>
    intro m hdec
    obtain ⟨p, hp⟩ := Option.isSome_iff_exists.mp (hdec r (by simp))
    have hstep : loadPolicyLine r m = some (loadPolicyArray m p) := by
      rw [loadPolicyLine, hp]
    rw [List.foldlM_cons, hstep]
    have hdec' : ∀ x ∈ rest, (decodeLine x).isSome := fun x hx => hdec x (by simp [hx])
    show rest.foldlM (fun acc r => loadPolicyLine r acc) (loadPolicyArray m p)
        = some (m ++ (r :: rest).filterMap decodeLine)
    rw [ih (loadPolicyArray m p) hdec']
    simp [loadPolicyArray, List.filterMap_cons, hp]

/-- C5: the full load is idempotent against a model already containing some
rules.  `Preview` discards exactly the candidate rows whose decoded tuple the
model already contains, so after `loadPolicy` a tuple is in the model iff it
was already there or some stored row decodes to it, and the multiplicity of a
tuple already present does not change (no duplication). -/
theorem loadPolicy_idempotent (m : Model) (rows : List CasbinRule)
    (hok : ∀ r ∈ rows, r.Ptype ≠ "") :
    (∃ kept, Preview m rows = some kept ∧
      List.Perm kept (rows.filter (keepB m))) ∧
    ∃ m2, loadPolicy rows m = some m2 ∧
      (∀ t, t ∈ m2 ↔ (t ∈ m ∨ ∃ r, r ∈ rows ∧ decodeLine r = some t)) ∧
      (∀ t ∈ m, m2.count t = m.count t) := by
  have hdec : ∀ r ∈ rows, (decodeLine r).isSome :=
    fun r hr => decodeLine_isSome_of_ptype (hok r hr)
  obtain ⟨kept, hk, hperm⟩ := Preview_spec m rows hdec
  refine ⟨⟨kept, hk, hperm⟩, ?_⟩
  have hdeck : ∀ r ∈ kept, (decodeLine r).isSome := by
    intro r hr
    exact hdec r (List.mem_of_mem_filter (hperm.mem_iff.mp hr))
  have hfold := foldl_loadPolicyLine kept m hdeck
  have hload : loadPolicy rows m = some (m ++ kept.filterMap decodeLine) := by
    rw [loadPolicy, hk]
    exact hfold
  have hXperm : List.Perm (kept.filterMap decodeLine)
      ((rows.filter (keepB m)).filterMap decodeLine) := hperm.filterMap _
  refine ⟨m ++ kept.filterMap decodeLine, hload, ?_, ?_⟩
  · intro t
    constructor
    · intro ht
      rcases List.mem_append.mp ht with h | h
      · exact Or.inl h
      · obtain ⟨r, hrf, hrt⟩ := List.mem_filterMap.mp (hXperm.mem_iff.mp h)
        exact Or.inr ⟨r, List.mem_of_mem_filter hrf, hrt⟩
    · intro ht
      rcases ht with h | ⟨r, hr, hrt⟩
      · exact List.mem_append.mpr (Or.inl h)
      · by_cases hmem : t ∈ m
        · exact List.mem_append.mpr (Or.inl hmem)
        · refine List.mem_append.mpr (Or.inr ?_)
          rw [hXperm.mem_iff]
          exact List.mem_filterMap.mpr
            ⟨r, List.mem_filter.mpr ⟨hr, keepB_eq_true hrt hmem⟩, hrt⟩
  · intro t htm
    rw [List.count_append]
    have hzero : (kept.filterMap decodeLine).count t = 0 := by
      rw [List.count_eq_zero]
      intro hmem
      obtain ⟨r, hrk, hrt⟩ := List.mem_filterMap.mp hmem
      have hrf : r ∈ rows.filter (keepB m) := hperm.mem_iff.mp hrk
      have hkeep : keepB m r = true := (List.mem_filter.mp hrf).2
      rw [keepB, hrt] at hkeep
      simp at hkeep
      exact hkeep htm
    rw [hzero]
    exact Nat.add_zero _

/-- Witness for `loadPolicy_idempotent`: a model already holding
`p, alice, data1, read` and a stored row set holding that rule plus
`p, bob, data2, write`. -/
theorem loadPolicy_idempotent_witness :
    (∀ r ∈ [(⟨"p", "alice", "data1", "read", "", "", "", "", ""⟩ : CasbinRule),
            ⟨"p", "bob", "data2", "write", "", "", "", "", ""⟩], r.Ptype ≠ "") ∧
    (∃ kept, Preview [["p", "alice", "data1", "read"]]
        [⟨"p", "alice", "data1", "read", "", "", "", "", ""⟩,
         ⟨"p", "bob", "data2", "write", "", "", "", "", ""⟩] = some kept ∧
      List.Perm kept
        ([(⟨"p", "alice", "data1", "read", "", "", "", "", ""⟩ : CasbinRule),
          ⟨"p", "bob", "data2", "write", "", "", "", "", ""⟩].filter
            (keepB [["p", "alice", "data1", "read"]]))) ∧
    ∃ m2, loadPolicy
        [⟨"p", "alice", "data1", "read", "", "", "", "", ""⟩,
         ⟨"p", "bob", "data2", "write", "", "", "", "", ""⟩]
        [["p", "alice", "data1", "read"]] = some m2 ∧
      (∀ t, t ∈ m2 ↔ (t ∈ [["p", "alice", "data1", "read"]] ∨
        ∃ r, r ∈ [(⟨"p", "alice", "data1", "read", "", "", "", "", ""⟩ : CasbinRule),
                  ⟨"p", "bob", "data2", "write", "", "", "", "", ""⟩] ∧
          decodeLine r = some t)) ∧
      (∀ t ∈ [["p", "alice", "data1", "read"]], m2.count t
        = [["p", "alice", "data1", "read"]].count t) :=
  ⟨by decide, (loadPolicy_idempotent _ _ (by decide)).1,
    (loadPolicy_idempotent _ _ (by decide)).2⟩

/-- Equality predicate built by `rawDelete` (`src/adapter.go` lines 617-656):
`ptype = ?` always, plus `vK = ?` for every non-empty value slot of `line`.
The source builds the identical predicate in `appendWhere` (lines 658-695) and
`CasbinRule.queryString` (lines 744-782). -/
def lineMatches (line r : CasbinRule) : Bool :=
  (r.Ptype == line.Ptype) &&
  (line.V0 == "" || r.V0 == line.V0) &&
  (line.V1 == "" || r.V1 == line.V1) &&
  (line.V2 == "" || r.V2 == line.V2) &&
  (line.V3 == "" || r.V3 == line.V3) &&
  (line.V4 == "" || r.V4 == line.V4) &&
  (line.V5 == "" || r.V5 == line.V5) &&
  (line.V6 == "" || r.V6 == line.V6) &&
  (line.V7 == "" || r.V7 == line.V7)

/-- `rawDelete` (`src/adapter.go` lines 617-656): delete every row matching
the equality predicate of `line`. -/
def rawDelete (st : Store) (line : CasbinRule) : Store :=
  st.filter (fun r => !(lineMatches line r))

/-- `checkQueryField` (`src/adapter.go` lines 607-615): the loop returns `nil`
at the first non-empty value and reports the validation error when every value
is the empty string (also when the list itself is empty). -/
def checkQueryField (fieldValues : List String) : Option Err :=
  if fieldValues.any (fun v => !(v == "")) then none else some Err.queryFieldEmpty

/-- Row with only the type column set, as built by
`line := a.getTableInstance(); line.Ptype = ptype`. -/
def ptypeOnly (pt : String) : CasbinRule := ⟨pt, "", "", "", "", "", "", "", ""⟩

/-- The field-window assignment block
`if fieldIndex <= K && K < fieldIndex+len(fieldValues) { line.VK = fieldValues[K-fieldIndex] }`
for K = 0..7, duplicated verbatim in `removeFilteredPolicy`
(`src/internal_func.go` lines 171-194) and `updateFilteredPolicies`
(lines 231-254).  `fi` is the Go `int` field index, which may be negative. -/
def assignWindow (pt : String) (fi : Int) (vals : List String) : CasbinRule :=
  { Ptype := pt
    V0 := if fi ≤ 0 ∧ 0 < fi + (vals.length : Int) then vals.getD (0 - fi).toNat "" else ""
    V1 := if fi ≤ 1 ∧ 1 < fi + (vals.length : Int) then vals.getD (1 - fi).toNat "" else ""
    V2 := if fi ≤ 2 ∧ 2 < fi + (vals.length : Int) then vals.getD (2 - fi).toNat "" else ""
    V3 := if fi ≤ 3 ∧ 3 < fi + (vals.length : Int) then vals.getD (3 - fi).toNat "" else ""
    V4 := if fi ≤ 4 ∧ 4 < fi + (vals.length : Int) then vals.getD (4 - fi).toNat "" else ""
    V5 := if fi ≤ 5 ∧ 5 < fi + (vals.length : Int) then vals.getD (5 - fi).toNat "" else ""
    V6 := if fi ≤ 6 ∧ 6 < fi + (vals.length : Int) then vals.getD (6 - fi).toNat "" else ""
    V7 := if fi ≤ 7 ∧ 7 < fi + (vals.length : Int) then vals.getD (7 - fi).toNat "" else ""
  }

/-- `removeFilteredPolicy` (`src/internal_func.go` lines 156-197): field index
exactly `-1` deletes every row of the type and returns before the
`checkQueryField` validation; otherwise the all-empty window is rejected and
the window row drives `rawDelete`.  Result: (returned error, table after). -/
def removeFilteredPolicy (st : Store) (pt : String) (fi : Int) (vals : List String) :
    Option Err × Store :=
  if fi = -1 then (none, rawDelete st (ptypeOnly pt))
  else
    match checkQueryField vals with
    | some e => (some e, st)
    | none => (none, rawDelete st (assignWindow pt fi vals))

/-- `CasbinRule.toStringPolicy` (`src/adapter.go` lines 784-814): collect the
non-empty columns in order (note: embedded empty slots are dropped too). -/
def toStringPolicy (c : CasbinRule) : List String :=
  (toStrings c).filter (fun s => !(s == ""))

/-- One `tx.Create(&row)` against the composite unique index over
`(ptype, v0..v7)` (`src/adapter.go` line 401): inserting a row already present
fails with the uniqueness violation, otherwise the row is appended. -/
def create1 (st : Store) (r : CasbinRule) : Except Err Store :=
  if r ∈ st then Except.error Err.uniqueViolation else Except.ok (st ++ [r])

/-- Sequential `Create` of several rows inside one transaction: the first
failure aborts (the caller then rolls back). -/
def createAll (st : Store) (rs : List CasbinRule) : Except Err Store :=
  rs.foldlM create1 st

/-- `updateFilteredPolicies` (`src/internal_func.go` lines 227-286): build the
window row (note: there is NO `checkQueryField` validation in this function,
unlike `removeFilteredPolicy`), then inside one transaction fetch the rows
matching `line.queryString()`, delete them, insert every new rule, and return
the decoded pre-image.  On any failure the transaction rolls back and the
table is unchanged.  Result: (error, replaced rules, table after). -/
def updateFilteredPolicies (st : Store) (pt : String) (newPolicies : List (List String))
    (fi : Int) (vals : List String) : Option Err × List (List String) × Store :=
  let line := assignWindow pt fi vals
  let oldP := st.filter (fun r => lineMatches line r)
  let afterDel := st.filter (fun r => !(lineMatches line r))
  match createAll afterDel (newPolicies.map (savePolicyLine pt)) with
  | Except.error e => (some e, [], st)
  | Except.ok st2 => (none, oldP.map toStringPolicy, st2)

/-- `addPolicy` (`src/internal_func.go` lines 120-124). -/
def addPolicy (st : Store) (sec : String) (pt : String) (rule : List String) :
    Option Err × Store :=
  match create1 st (savePolicyLine pt rule) with
  | Except.error e => (some e, st)
  | Except.ok st2 => (none, st2)

/-- `addPolicies` (`src/internal_func.go` lines 127-134): one bulk
`Create(&lines)`; the statement is atomic, so on a violation no row is added. -/
def addPolicies (st : Store) (sec : String) (pt : String) (rules : List (List String)) :
    Option Err × Store :=
  match createAll st (rules.map (savePolicyLine pt)) with
  | Except.error e => (some e, st)
  | Except.ok st2 => (none, st2)

/-- `removePolicy` (`src/internal_func.go` lines 137-141). -/
def removePolicy (st : Store) (sec : String) (pt : String) (rule : List String) :
    Option Err × Store :=
  (none, rawDelete st (savePolicyLine pt rule))

/-- Loop body of `removePolicies` (`src/internal_func.go` lines 146-150):
the rules are deleted in sequence; `delErr k` is the store's response to the
k-th delete.  The error branch of the source is EMPTY
(`if err := a.rawDelete(tx, line); err != nil { }`), so a failed delete is
skipped and the loop continues. -/
def removePoliciesLoop (pt : String) (delErr : Nat → Option Err) :
    Store → List (List String) → Nat → Store
  | st, [], _ => st
  | st, rule :: rest, k =>
    match delErr k with
    | some _ => removePoliciesLoop pt delErr st rest (k + 1)
    | none => removePoliciesLoop pt delErr (rawDelete st (savePolicyLine pt rule)) rest (k + 1)

/-- `removePolicies` (`src/internal_func.go` lines 144-153): the loop runs
inside `db.Transaction`; since the callback always returns `nil`, the
transaction always commits and the caller receives no error. -/
def removePolicies (st : Store) (sec : String) (pt : String) (rules : List (List String))
    (delErr : Nat → Option Err) : Option Err × Store :=
  (none, removePoliciesLoop pt delErr st rules 0)

/-- Condition of a gorm `Where(&struct)` clause as used by `updatePolicy`:
only the non-zero (non-empty) fields of the struct constrain the row. -/
def structWhere (line r : CasbinRule) : Bool :=
  (line.Ptype == "" || r.Ptype == line.Ptype) &&
  (line.V0 == "" || r.V0 == line.V0) &&
  (line.V1 == "" || r.V1 == line.V1) &&
  (line.V2 == "" || r.V2 == line.V2) &&
  (line.V3 == "" || r.V3 == line.V3) &&
  (line.V4 == "" || r.V4 == line.V4) &&
  (line.V5 == "" || r.V5 == line.V5) &&
  (line.V6 == "" || r.V6 == line.V6) &&
  (line.V7 == "" || r.V7 == line.V7)

/-- Effect of a gorm `Updates(struct)` call: overwrite only the non-zero
(non-empty) fields of the new struct. -/
def applyUpdates (line r : CasbinRule) : CasbinRule :=
  { Ptype := if line.Ptype == "" then r.Ptype else line.Ptype
    V0 := if line.V0 == "" then r.V0 else line.V0
    V1 := if line.V1 == "" then r.V1 else line.V1
    V2 := if line.V2 == "" then r.V2 else line.V2
    V3 := if line.V3 == "" then r.V3 else line.V3
    V4 := if line.V4 == "" then r.V4 else line.V4
    V5 := if line.V5 == "" then r.V5 else line.V5
    V6 := if line.V6 == "" then r.V6 else line.V6
    V7 := if line.V7 == "" then r.V7 else line.V7
  }

/-- `updatePolicy` (`src/internal_func.go` lines 200-204):
`db.Model(&oldLine).Where(&oldLine).Updates(newLine)`. -/
def updatePolicy (st : Store) (sec : String) (pt : String) (oldRule newRule : List String) :
    Option Err × Store :=
  (none, st.map (fun r =>
    if structWhere (savePolicyLine pt oldRule) r
    then applyUpdates (savePolicyLine pt newRule) r else r))

/-- `updatePolicies` (`src/internal_func.go` lines 206-224): apply each
(old, new) pair in sequence inside one transaction.  The source indexes
`newPolicies[i]` for `i` over the old rules; the pairs are zipped here (the
source panics when fewer new rules than old rules are supplied - not
modelled). -/
def updatePolicies (st : Store) (sec : String) (pt : String)
    (oldRules newRules : List (List String)) : Option Err × Store :=
  (none, (oldRules.zip newRules).foldl (fun acc pr =>
    acc.map (fun r =>
      if structWhere (savePolicyLine pt pr.1) r
      then applyUpdates (savePolicyLine pt pr.2) r else r)) st)

/-- `Filter` struct (`src/adapter.go` lines 60-70): per-column acceptable
value sets; an empty list leaves the column unconstrained. -/
structure Filter where
  Ptype : List String
  V0 : List String
  V1 : List String
  V2 : List String
  V3 : List String
  V4 : List String
  V5 : List String
  V6 : List String
  V7 : List String

/-- Predicate of `filterQuery` (`src/adapter.go` lines 471-502): AND of
`column IN (set)` over the columns with a non-empty constraint set. -/
def filterMatches (f : Filter) (r : CasbinRule) : Bool :=
  (f.Ptype.isEmpty || f.Ptype.contains r.Ptype) &&
  (f.V0.isEmpty || f.V0.contains r.V0) &&
  (f.V1.isEmpty || f.V1.contains r.V1) &&
  (f.V2.isEmpty || f.V2.contains r.V2) &&
  (f.V3.isEmpty || f.V3.contains r.V3) &&
  (f.V4.isEmpty || f.V4.contains r.V4) &&
  (f.V5.isEmpty || f.V5.contains r.V5) &&
  (f.V6.isEmpty || f.V6.contains r.V6) &&
  (f.V7.isEmpty || f.V7.contains r.V7)

/-- `loadFilteredPolicy` (`src/internal_func.go` lines 31-67) with the filter
batch already resolved (the Go type switch over the dynamic filter argument is
dynamic typing, not modelled): one query per filter, each result row decoded
and appended into the model.  The `isFiltered` flag is adapter-local state and
is not modelled. -/
def loadFilteredPolicy (rows : Store) (m : Model) (filters : List Filter) : Option Model :=
  filters.foldlM (fun acc f =>
    (rows.filter (filterMatches f)).foldlM (fun acc2 line => loadPolicyLine line acc2) acc) m

/-- The policy engine model as consumed by `savePolicy`: the `"p"` and `"g"`
sections, each an ordered association of a rule type to its ordered policy
rules (spec §6; the Go `model["p"]`/`model["g"]` maps iterate in unspecified
ptype order - a list fixes one such order). -/
structure PolicyModel where
  p : List (String × List (List String))
  g : List (String × List (List String))

/-- The flush threshold `flushEvery := 1000` of `savePolicy`
(`src/internal_func.go` line 82). -/
def flushEvery : Nat := 1000

/-- One iteration of the `savePolicy` buffering loop
(`src/internal_func.go` lines 84-93): append the encoded rule to `lines`, and
when `len(lines) > flushEvery` emit the buffer as one bulk `Create` statement
and reset it.  `acc` is (statements emitted so far, current buffer). -/
def flushStep (pt : String) (acc : List (List CasbinRule) × List CasbinRule)
    (rule : List String) : List (List CasbinRule) × List CasbinRule :=
  let lines := acc.2 ++ [savePolicyLine pt rule]
  if flushEvery < lines.length then (acc.1 ++ [lines], []) else (acc.1, lines)

/-- The buffering loop over one model section
(`for ptype, ast := range model[sec] { for _, rule := range ast.Policy ... }`). -/
def foldSection (sec : List (String × List (List String)))
    (acc : List (List CasbinRule) × List CasbinRule) :
    List (List CasbinRule) × List CasbinRule :=
  sec.foldl (fun a e => e.2.foldl (flushStep e.1) a) acc

/-- The bulk-insert statements issued by `savePolicy`
(`src/internal_func.go` lines 81-113): the `"p"` section is buffered first,
then the `"g"` section (the buffer carries over), then a final flush if the
buffer is non-empty. -/
def savePolicyBatches (pm : PolicyModel) : List (List CasbinRule) :=
  let acc := foldSection pm.g (foldSection pm.p ([], []))
  if 0 < acc.2.length then acc.1 ++ [acc.2] else acc.1

/-- The encoded rows of one model section in emission order. -/
def sectionRows (sec : List (String × List (List String))) : List CasbinRule :=
  sec.flatMap (fun e => e.2.map (savePolicyLine e.1))

/-- Issue the bulk `Create` statements in order; `f k` is the store's response
to the k-th statement, the first failure aborting the sequence. -/
def runCreates (f : Nat → Option Err) : List (List CasbinRule) → Nat → Option Err
  | [], _ => none
  | _ :: rest, k =>
    match f k with
    | some e => some e
    | none => runCreates f rest (k + 1)

/-- `savePolicy` (`src/internal_func.go` lines 70-117).  The transaction `tx`
is begun first, but `truncateTable` is executed on the NON-transactional
handle (`a.truncateTable(db)`, line 74, executing `DELETE FROM`/`TRUNCATE
TABLE` per dialect, `src/adapter.go` lines 417-434), so its effect on the
committed table is immediate and survives a later `tx.Rollback()`.  The bulk
inserts all run inside `tx`: the buffered statements are precomputed by
`savePolicyBatches` (buffering is pure, so interleaving build and `Create`
as the source does is observationally identical) and issued in order; on the
first failing insert the transaction rolls back, leaving the already-truncated
(empty) table; on success the commit publishes all inserted rows.
Result: (returned error, committed table). -/
def savePolicy (pre : Store) (pm : PolicyModel) (truncErr : Option Err)
    (createErr : Nat → Option Err) (commitErr : Option Err) : Option Err × Store :=
  match truncErr with
  | some e => (some e, pre)
  | none =>
    match runCreates createErr (savePolicyBatches pm) 0 with
    | some e => (some e, [])
    | none =>
      match commitErr with
      | some e => (some e, [])
      | none => (none, (savePolicyBatches pm).flatten)

/-- Observable outcome of one `Transaction` call (`src/adapter.go`
lines 557-595): the error handed to the caller, whether the transaction
committed or rolled back, whether the policy engine's reload hook
(`e.LoadPolicy()`) was invoked by the deferred recovery block, and the reload
error that was logged (the deferred block only logs it; because the function's
return value is unnamed, the assignment `err = e.LoadPolicy()` inside the
deferred function cannot change what the caller receives). -/
structure TxOutcome where
  returned : Option Err
  committed : Bool
  rolledBack : Bool
  reloadInvoked : Bool
  loggedReloadErr : Option Err
deriving DecidableEq

/-- The deferred recovery block of `Transaction` (`src/adapter.go`
lines 567-576): when the callback panicked or `err` is non-nil, roll back,
re-load the engine policy and log (only) the reload error.
Result: (rolledBack, reloadInvoked, logged reload error). -/
def deferredRecover (panicked : Bool) (err : Option Err) (reloadErr : Option Err) :
    Bool × Bool × Option Err :=
  if panicked || err.isSome then (true, true, reloadErr) else (false, false, none)

/-- `Transaction` (`src/adapter.go` lines 557-595).  `beginErr` is
`tx.Error` of `Begin`, `cbErr` the result of the callback `fc` run against the
transaction-bound adapter, `commitErr` the result of `tx.Commit()`, and
`reloadErr` the result of `e.LoadPolicy()` inside the deferred block.  Panics
of the callback are not modelled (the `panicked` flag is false on every path
reaching the deferred block). -/
def Transaction (beginErr cbErr commitErr reloadErr : Option Err) : TxOutcome :=
  match beginErr with
  | some e =>
    -- `if tx.Error != nil { return tx.Error }` - before the defer is set up
    { returned := some e, committed := false, rolledBack := false
      reloadInvoked := false, loggedReloadErr := none }
  | none =>
    match cbErr with
    | none =>
      match commitErr with
      | none =>
        -- success: `panicked = false`, `err = nil` - the deferred block no-ops
        let d := deferredRecover false none reloadErr
        { returned := none, committed := true, rolledBack := d.1
          reloadInvoked := d.2.1, loggedReloadErr := d.2.2 }
      | some e =>
        -- commit failed: returned before the deferred block runs it
        let d := deferredRecover false (some e) reloadErr
        { returned := some e, committed := false, rolledBack := d.1
          reloadInvoked := d.2.1, loggedReloadErr := d.2.2 }
    | some e =>
      -- callback failed: `panicked = false; return err`, deferred block recovers
      let d := deferredRecover false (some e) reloadErr
      { returned := some e, committed := false, rolledBack := d.1
        reloadInvoked := d.2.1, loggedReloadErr := d.2.2 }

/-- Result of `getDBByCtx` (`src/context_adapter.go` lines 81-84): the
request context either holds a database handle (carrying the table state)
under the adapter's configured key, or it does not.  The per-call goroutine
and cancellation race of `executeWithContext` is real concurrency and is not
modelled; without a fired cancellation the wrapper returns exactly the inner
function's result. -/
abbrev Ctx := Option Store

/-- `LoadPolicyCtx` (`src/context_adapter.go` lines 128-136). -/
def LoadPolicyCtx (ctx : Ctx) (m : Model) : Except Err (Option Model) :=
  match ctx with
  | none => Except.error Err.ctxWithoutDB
  | some rows => Except.ok (loadPolicy rows m)

/-- `LoadFilteredPolicyCtx` (`src/context_adapter.go` lines 139-147). -/
def LoadFilteredPolicyCtx (ctx : Ctx) (m : Model) (filters : List Filter) :
    Except Err (Option Model) :=
  match ctx with
  | none => Except.error Err.ctxWithoutDB
  | some rows => Except.ok (loadFilteredPolicy rows m filters)

/-- `SavePolicyCtx` (`src/context_adapter.go` lines 150-158). -/
def SavePolicyCtx (ctx : Ctx) (pm : PolicyModel) (truncErr : Option Err)
    (createErr : Nat → Option Err) (commitErr : Option Err) :
    Except Err (Option Err × Store) :=
  match ctx with
  | none => Except.error Err.ctxWithoutDB
  | some st => Except.ok (savePolicy st pm truncErr createErr commitErr)

/-- `AddPolicyCtx` (`src/context_adapter.go` lines 162-170). -/
def AddPolicyCtx (ctx : Ctx) (sec : String) (pt : String) (rule : List String) :
    Except Err (Option Err × Store) :=
  match ctx with
  | none => Except.error Err.ctxWithoutDB
  | some st => Except.ok (addPolicy st sec pt rule)

/-- `AddPoliciesCtx` (`src/context_adapter.go` lines 174-182). -/
def AddPoliciesCtx (ctx : Ctx) (sec : String) (pt : String) (rules : List (List String)) :
    Except Err (Option Err × Store) :=
  match ctx with
  | none => Except.error Err.ctxWithoutDB
  | some st => Except.ok (addPolicies st sec pt rules)

/-- `RemovePolicyCtx` (`src/context_adapter.go` lines 186-194). -/
def RemovePolicyCtx (ctx : Ctx) (sec : String) (pt : String) (rule : List String) :
    Except Err (Option Err × Store) :=
  match ctx with
  | none => Except.error Err.ctxWithoutDB
  | some st => Except.ok (removePolicy st sec pt rule)

/-- `RemovePoliciesCtx` (`src/context_adapter.go` lines 198-206). -/
def RemovePoliciesCtx (ctx : Ctx) (sec : String) (pt : String)
    (rules : List (List String)) (delErr : Nat → Option Err) :
    Except Err (Option Err × Store) :=
  match ctx with
  | none => Except.error Err.ctxWithoutDB
  | some st => Except.ok (removePolicies st sec pt rules delErr)

/-- `RemoveFilteredPolicyCtx` (`src/context_adapter.go` lines 210-218). -/
def RemoveFilteredPolicyCtx (ctx : Ctx) (sec : String) (pt : String) (fi : Int)
    (vals : List String) : Except Err (Option Err × Store) :=
  match ctx with
  | none => Except.error Err.ctxWithoutDB
  | some st => Except.ok (removeFilteredPolicy st pt fi vals)

/-- `UpdatePolicyCtx` (`src/context_adapter.go` lines 222-230). -/
def UpdatePolicyCtx (ctx : Ctx) (sec : String) (pt : String)
    (oldRule newRule : List String) : Except Err (Option Err × Store) :=
  match ctx with
  | none => Except.error Err.ctxWithoutDB
  | some st => Except.ok (updatePolicy st sec pt oldRule newRule)

/-- `UpdatePoliciesCtx` (`src/context_adapter.go` lines 233-241). -/
def UpdatePoliciesCtx (ctx : Ctx) (sec : String) (pt : String)
    (oldRules newRules : List (List String)) : Except Err (Option Err × Store) :=
  match ctx with
  | none => Except.error Err.ctxWithoutDB
  | some st => Except.ok (updatePolicies st sec pt oldRules newRules)

/-- `UpdateFilteredPoliciesCtx` (`src/context_adapter.go` lines 244-252). -/
def UpdateFilteredPoliciesCtx (ctx : Ctx) (sec : String) (pt : String)
    (newRules : List (List String)) (fi : Int) (vals : List String) :
    Except Err (Option Err × List (List String) × Store) :=
  match ctx with
  | none => Except.error Err.ctxWithoutDB
  | some st => Except.ok (updateFilteredPolicies st pt newRules fi vals)

/-- `TransactionCtx` (`src/context_adapter.go` lines 87-125): identical
transaction discipline to `Transaction` (with `LoadPolicySyncWatcher` as the
reload hook), guarded by the context lookup. -/
def TransactionCtx (ctx : Ctx) (beginErr cbErr commitErr reloadErr : Option Err) :
    Except Err TxOutcome :=
  match ctx with
  | none => Except.error Err.ctxWithoutDB
  | some _ => Except.ok (Transaction beginErr cbErr commitErr reloadErr)

lemma lineMatches_ptypeOnly (pt : String) (r : CasbinRule) :
    lineMatches (ptypeOnly pt) r = (r.Ptype == pt) := by
  simp [lineMatches, ptypeOnly]

/-- C7: `removeFilteredPolicy` with field index exactly `-1` deletes every row
whose `ptype` equals the given type and no other row, returning before the
not-all-empty window validation (the value window, even an all-empty one,
is ignored and produces no error). -/
theorem removeFiltered_minus_one (st : Store) (pt : String) (vals : List String) :
    removeFilteredPolicy st pt (-1) vals
      = (none, st.filter (fun r => !(r.Ptype == pt))) := by
  rw [removeFilteredPolicy, if_pos rfl]
  refine congrArg (Prod.mk none) ?_
  refine List.filter_congr ?_
  intro r _
  rw [lineMatches_ptypeOnly]

lemma assignWindow_all_empty (pt : String) (fi : Int) (vals : List String)
    (h : ∀ v ∈ vals, v = "") : assignWindow pt fi vals = ptypeOnly pt := by
  have hg : ∀ k : Nat, vals[k]?.getD "" = "" := by
    intro k
    rcases Nat.lt_or_ge k vals.length with hk | hk
    · rw [List.getElem?_eq_getElem hk]
      exact h _ (List.getElem_mem hk)
    · rw [List.getElem?_eq_none hk]
      rfl
  simp [assignWindow, ptypeOnly, hg]

lemma checkQueryField_all_empty (vals : List String) (h : ∀ v ∈ vals, v = "") :
    checkQueryField vals = some Err.queryFieldEmpty := by
  rw [checkQueryField, if_neg]
  simp only [List.any_eq_true, not_exists]
  intro v
  simp only [not_and, Bool.not_eq_true']
  intro hv
  simp [h v hv]

/-- C3 (amended): an all-empty value window is rejected with the explicit
validation error by the filtered remove, which deletes nothing; the filtered
update performs no such validation - it proceeds, its window row degenerating
to the type column alone, so it fetches, returns and deletes every row of the
given type (shown here with no replacement rules, so the transaction always
commits). -/
theorem filtered_window_validation :
    (∀ (st : Store) (pt : String) (fi : Int) (vals : List String),
      fi ≠ -1 → (∀ v ∈ vals, v = "") →
      removeFilteredPolicy st pt fi vals = (some Err.queryFieldEmpty, st)) ∧
    (∀ (st : Store) (pt : String) (fi : Int) (vals : List String),
      (∀ v ∈ vals, v = "") →
      updateFilteredPolicies st pt [] fi vals
        = (none, (st.filter (fun r => r.Ptype == pt)).map toStringPolicy,
           st.filter (fun r => !(r.Ptype == pt)))) := by
  constructor
  · intro st pt fi vals hfi hv
    rw [removeFilteredPolicy, if_neg hfi, checkQueryField_all_empty vals hv]
  · intro st pt fi vals hv
    simp only [updateFilteredPolicies, assignWindow_all_empty pt fi vals hv]
    have hfil1 : st.filter (fun r => lineMatches (ptypeOnly pt) r)
        = st.filter (fun r => r.Ptype == pt) :=
      List.filter_congr (fun r _ => lineMatches_ptypeOnly pt r)
    have hfil2 : st.filter (fun r => !(lineMatches (ptypeOnly pt) r))
        = st.filter (fun r => !(r.Ptype == pt)) :=
      List.filter_congr (fun r _ => by rw [lineMatches_ptypeOnly])
    rw [List.map_nil]
    show (match createAll (st.filter (fun r => !(lineMatches (ptypeOnly pt) r))) [] with
      | Except.error e => (some e, [], st)
      | Except.ok st2 =>
        (none, (st.filter (fun r => lineMatches (ptypeOnly pt) r)).map toStringPolicy, st2))
      = _
    rw [show createAll (st.filter (fun r => !(lineMatches (ptypeOnly pt) r))) []
        = Except.ok (st.filter (fun r => !(lineMatches (ptypeOnly pt) r))) from rfl]
    rw [hfil1, hfil2]

/-- Witness for `filtered_window_validation` at concrete inputs. -/
theorem filtered_window_validation_witness :
    ((0 : Int) ≠ -1) ∧ (∀ v ∈ [("" : String), ""], v = "") ∧
    removeFilteredPolicy [] "p" 0 ["", ""] = (some Err.queryFieldEmpty, []) ∧
    updateFilteredPolicies [] "p" [] 0 ["", ""] = (none, [], []) :=
  ⟨by decide, by decide,
   filtered_window_validation.1 [] "p" 0 ["", ""] (by decide) (by decide),
   by simpa using filtered_window_validation.2 [] "p" 0 ["", ""] (by decide)⟩

/-- Row `p, alice, data1, read` used by the `updateFilteredPolicies`
counterexample. -/
def rowAlice : CasbinRule := ⟨"p", "alice", "data1", "read", "", "", "", "", ""⟩

/-- Counterexample to C3 as stated: on the all-empty window `0, ["", ""]` the
filtered update does NOT return the validation error and does NOT leave the
table untouched - it deletes the `p` row (returning it as the pre-image). -/
theorem updateFiltered_skips_validation :
    updateFilteredPolicies [rowAlice] "p" [] 0 ["", ""]
      = (none, [["p", "alice", "data1", "read"]], []) ∧
    ¬ ((updateFilteredPolicies [rowAlice] "p" [] 0 ["", ""]).1 = some Err.queryFieldEmpty) ∧
    ¬ ((updateFilteredPolicies [rowAlice] "p" [] 0 ["", ""]).2.2 = [rowAlice]) := by
  refine ⟨by decide, by decide, by decide⟩

lemma removePoliciesLoop_allfail (pt : String) (rules : List (List String)) :
    ∀ (st : Store) (k : Nat),
      removePoliciesLoop pt (fun k => some (Err.store k)) st rules k = st := by
  induction rules with
  | nil => intro st k; rfl
  | cons rule rest ih => intro st k; exact ih st (k + 1)

lemma removePoliciesLoop_nofail_mem (pt : String) (rules : List (List String)) :
    ∀ (st : Store) (k : Nat) (r : CasbinRule),
      r ∈ removePoliciesLoop pt (fun _ => none) st rules k ↔
        (r ∈ st ∧ ∀ rule ∈ rules, lineMatches (savePolicyLine pt rule) r = false) := by
  induction rules with
  | nil =>
    intro st k r
    simp [removePoliciesLoop]
  | cons rule rest ih =>
    intro st k r
    rw [removePoliciesLoop]
    rw [ih]
    simp only [rawDelete, List.mem_filter, Bool.not_eq_true', List.forall_mem_cons]
    tauto

/-- C6: batch remove issues the per-rule deletes in sequence inside one
transaction, and because the error branch of the loop is empty the operation
never reports a failure: the returned error is `nil` for every oracle of
per-item delete results; when every delete fails the table is untouched (and
still no error is returned); when none fails exactly the rows matching some
rule's equality predicate are gone. -/
theorem removePolicies_swallows_errors (st : Store) (sec pt : String)
    (rules : List (List String)) (delErr : Nat → Option Err) :
    (removePolicies st sec pt rules delErr).1 = none ∧
    (removePolicies st sec pt rules (fun k => some (Err.store k))).2 = st ∧
    (∀ r : CasbinRule, r ∈ (removePolicies st sec pt rules (fun _ => none)).2 ↔
      (r ∈ st ∧ ∀ rule ∈ rules, lineMatches (savePolicyLine pt rule) r = false)) :=
  ⟨rfl, removePoliciesLoop_allfail pt rules st 0,
   fun r => removePoliciesLoop_nofail_mem pt rules st 0 r⟩

/-- Witness for `removePolicies_swallows_errors` at a concrete table, rule
list and failing oracle. -/
theorem removePolicies_swallows_errors_witness :
    (removePolicies [⟨"p", "x", "", "", "", "", "", "", ""⟩] "p" "p" [["x"]]
      (fun _ => some (Err.store 7))).1 = none ∧
    (removePolicies [⟨"p", "x", "", "", "", "", "", "", ""⟩] "p" "p" [["x"]]
      (fun k => some (Err.store k))).2 = [⟨"p", "x", "", "", "", "", "", "", ""⟩] :=
  ⟨(removePolicies_swallows_errors _ _ _ _ _).1,
   (removePolicies_swallows_errors [⟨"p", "x", "", "", "", "", "", "", ""⟩] "p" "p" [["x"]]
      (fun _ => some (Err.store 7))).2.1⟩

lemma flushStep_bound (pt : String) (acc : List (List CasbinRule) × List CasbinRule)
    (rule : List String)
    (h1 : ∀ b ∈ acc.1, b.length ≤ flushEvery + 1) (h2 : acc.2.length ≤ flushEvery) :
    (∀ b ∈ (flushStep pt acc rule).1, b.length ≤ flushEvery + 1) ∧
    (flushStep pt acc rule).2.length ≤ flushEvery := by
  by_cases hc : flushEvery < (acc.2 ++ [savePolicyLine pt rule]).length
  · simp only [flushStep, if_pos hc]
    refine ⟨?_, by simp⟩
    intro b hb
    rcases List.mem_append.mp hb with h | h
    · exact h1 b h
    · rw [List.mem_singleton] at h
      subst h
      rw [List.length_append, List.length_cons, List.length_nil]
      omega
  · simp only [flushStep, if_neg hc]
    refine ⟨h1, ?_⟩
    rw [List.length_append, List.length_cons, List.length_nil] at hc ⊢
    omega

lemma flushStep_rows (pt : String) (acc : List (List CasbinRule) × List CasbinRule)
    (rule : List String) :
    (flushStep pt acc rule).1.flatten ++ (flushStep pt acc rule).2
      = acc.1.flatten ++ acc.2 ++ [savePolicyLine pt rule] := by
  simp only [flushStep]
  by_cases hc : flushEvery < (acc.2 ++ [savePolicyLine pt rule]).length
  · rw [if_pos hc]
    simp [List.append_assoc]
  · rw [if_neg hc]
    simp [List.append_assoc]

lemma foldRules_inv (pt : String) (rules : List (List String)) :
    ∀ acc : List (List CasbinRule) × List CasbinRule,
      (∀ b ∈ acc.1, b.length ≤ flushEvery + 1) → acc.2.length ≤ flushEvery →
      (∀ b ∈ (rules.foldl (flushStep pt) acc).1, b.length ≤ flushEvery + 1) ∧
      (rules.foldl (flushStep pt) acc).2.length ≤ flushEvery ∧
      (rules.foldl (flushStep pt) acc).1.flatten ++ (rules.foldl (flushStep pt) acc).2
        = acc.1.flatten ++ acc.2 ++ rules.map (savePolicyLine pt) := by
  induction rules with
  | nil =>
    intro acc h1 h2
    exact ⟨h1, h2, by simp⟩
  | cons rule rest ih =>
    intro acc h1 h2
    rw [List.foldl_cons]
    obtain ⟨hb1, hb2⟩ := flushStep_bound pt acc rule h1 h2
    obtain ⟨k1, k2, k3⟩ := ih (flushStep pt acc rule) hb1 hb2
    refine ⟨k1, k2, ?_⟩
    rw [k3, flushStep_rows]
    simp [List.append_assoc]

lemma foldSection_inv (sec : List (String × List (List String))) :
    ∀ acc : List (List CasbinRule) × List CasbinRule,
      (∀ b ∈ acc.1, b.length ≤ flushEvery + 1) → acc.2.length ≤ flushEvery →
      (∀ b ∈ (foldSection sec acc).1, b.length ≤ flushEvery + 1) ∧
      (foldSection sec acc).2.length ≤ flushEvery ∧
      (foldSection sec acc).1.flatten ++ (foldSection sec acc).2
        = acc.1.flatten ++ acc.2 ++ sectionRows sec := by
  induction sec with
  | nil =>
    intro acc h1 h2
    exact ⟨h1, h2, by simp [foldSection, sectionRows]⟩
  | cons e rest ih =>
    intro acc h1 h2
    have hstep : foldSection (e :: rest) acc = foldSection rest (e.2.foldl (flushStep e.1) acc) := by
      rw [foldSection, foldSection, List.foldl_cons]
    rw [hstep]
    obtain ⟨m1, m2, m3⟩ := foldRules_inv e.1 e.2 acc h1 h2
    obtain ⟨k1, k2, k3⟩ := ih _ m1 m2
    refine ⟨k1, k2, ?_⟩
    rw [k3, m3]
    simp [sectionRows, List.append_assoc]

/-- C8 (amended): `savePolicy` emits every encoded row of the `"p"` section
before every row of the `"g"` section (the concatenation of the issued bulk
inserts is exactly the `"p"` rows followed by the `"g"` rows), and every bulk
insert carries at most `flushEvery + 1 = 1001` rows: the buffer is flushed
only when its length EXCEEDS the 1000-row threshold, so an intermediate
statement holds exactly 1001 rows and the final one at most 1000. -/
theorem savePolicy_batching (pm : PolicyModel) :
    (∀ b ∈ savePolicyBatches pm, b.length ≤ flushEvery + 1) ∧
    (savePolicyBatches pm).flatten = sectionRows pm.p ++ sectionRows pm.g := by
  obtain ⟨p1, p2, p3⟩ := foldSection_inv pm.p ([], []) (by simp) (by simp [flushEvery])
  obtain ⟨g1, g2, g3⟩ := foldSection_inv pm.g (foldSection pm.p ([], [])) p1 p2
  have hjoin : (foldSection pm.g (foldSection pm.p ([], []))).1.flatten
      ++ (foldSection pm.g (foldSection pm.p ([], []))).2
      = sectionRows pm.p ++ sectionRows pm.g := by
    rw [g3, p3]
    simp
  rw [savePolicyBatches]
  by_cases hbuf : 0 < (foldSection pm.g (foldSection pm.p ([], []))).2.length
  · rw [if_pos hbuf]
    constructor
    · intro b hb
      rcases List.mem_append.mp hb with h | h
      · exact g1 b h
      · rw [List.mem_singleton] at h
        subst h
        omega
    · rw [List.flatten_append]
      simpa using hjoin
  · rw [if_neg hbuf]
    have hnil : (foldSection pm.g (foldSection pm.p ([], []))).2 = [] := by
      rw [← List.length_eq_zero]
      omega
    refine ⟨g1, ?_⟩
    rw [hnil, List.append_nil] at hjoin
    exact hjoin

/-- Witness for `savePolicy_batching` at a one-rule model, the bound applied
to its single emitted statement. -/
theorem savePolicy_batching_witness :
    (savePolicyBatches ⟨[("p", [["alice"]])], []⟩).flatten
      = sectionRows [("p", [["alice"]])] ++ sectionRows [] ∧
    [savePolicyLine "p" ["alice"]].length ≤ flushEvery + 1 :=
  ⟨(savePolicy_batching ⟨[("p", [["alice"]])], []⟩).2,
   (savePolicy_batching ⟨[("p", [["alice"]])], []⟩).1 [savePolicyLine "p" ["alice"]]
     (by decide)⟩

/-- A model with 1001 rules of one `p` type (`flushEvery + 1 = 1001`). -/
def pmBig : PolicyModel := ⟨[("p", List.replicate (flushEvery + 1) ["a"])], []⟩

lemma foldl_flushStep_no_flush (pt : String) :
    ∀ (rules : List (List String)) (bs : List (List CasbinRule)) (buf : List CasbinRule),
      buf.length + rules.length ≤ flushEvery →
      rules.foldl (flushStep pt) (bs, buf) = (bs, buf ++ rules.map (savePolicyLine pt)) := by
  intro rules
  induction rules with
  | nil =>
    intro bs buf h
    simp
  | cons rule rest ih =>
    intro bs buf h
    rw [List.foldl_cons]
    rw [List.length_cons] at h
    have hc : ¬ (flushEvery < (buf ++ [savePolicyLine pt rule]).length) := by
      rw [List.length_append, List.length_cons, List.length_nil]
      omega
    have hstep : flushStep pt (bs, buf) rule = (bs, buf ++ [savePolicyLine pt rule]) := by
      simp only [flushStep, if_neg hc]
    rw [hstep, ih bs (buf ++ [savePolicyLine pt rule])
      (by rw [List.length_append, List.length_cons, List.length_nil]; omega)]
    simp [List.append_assoc]

lemma foldSection_single (pt : String) (rules : List (List String))
    (acc : List (List CasbinRule) × List CasbinRule) :
    foldSection [(pt, rules)] acc = rules.foldl (flushStep pt) acc := by
  rw [foldSection, List.foldl_cons, List.foldl_nil]

lemma foldSection_nil (acc : List (List CasbinRule) × List CasbinRule) :
    foldSection [] acc = acc := rfl

/-- Counterexample to C8 as stated: saving `pmBig` issues one bulk insert of
exactly 1001 rows, exceeding the claimed 1000-row bound (the source flushes
only when `len(lines) > flushEvery`). -/
theorem savePolicy_batch_of_1001 :
    ¬ (∀ b ∈ savePolicyBatches pmBig, b.length ≤ 1000) := by
  intro hall
  have hsplit : List.replicate (flushEvery + 1) (["a"] : List String)
      = List.replicate flushEvery ["a"] ++ [["a"]] := List.replicate_succ' _ _
  have hmap : (List.replicate flushEvery (["a"] : List String)).map (savePolicyLine "p")
      = List.replicate flushEvery (savePolicyLine "p" ["a"]) := List.map_replicate ..
  have hp : pmBig.p = [("p", List.replicate (flushEvery + 1) ["a"])] := rfl
  have hg : pmBig.g = [] := rfl
  have hsec : foldSection pmBig.g (foldSection pmBig.p ([], []))
      = ([List.replicate (flushEvery + 1) (savePolicyLine "p" ["a"])], []) := by
    rw [hg, hp, foldSection_nil, foldSection_single]
    rw [hsplit, List.foldl_append,
      foldl_flushStep_no_flush "p" (List.replicate flushEvery ["a"]) [] [] (by simp),
      List.foldl_cons, List.foldl_nil, hmap]
    have hflush : flushEvery
        < ((List.replicate flushEvery (savePolicyLine "p" ["a"]))
            ++ [savePolicyLine "p" ["a"]]).length := by
      simp
    simp only [flushStep, List.nil_append, if_pos hflush]
    rw [← List.replicate_succ']
  have hbatches : savePolicyBatches pmBig
      = [List.replicate (flushEvery + 1) (savePolicyLine "p" ["a"])] := by
    rw [savePolicyBatches, hsec]
    rfl
  have hmem : List.replicate (flushEvery + 1) (savePolicyLine "p" ["a"])
      ∈ savePolicyBatches pmBig := by
    rw [hbatches]
    exact List.mem_singleton.mpr rfl
  have hle := hall _ hmem
  rw [List.length_replicate] at hle
  rw [show flushEvery = 1000 from rfl] at hle
  omega

/-- The pre-save table row used by the `savePolicy` evaluation. -/
def preRow : CasbinRule := ⟨"p", "bob", "data2", "write", "", "", "", "", ""⟩

/-- A one-rule model to be saved. -/
def pmOne : PolicyModel := ⟨[("p", [["alice", "data1", "read"]])], []⟩

/-- C1: evaluation of `savePolicy` at a failing bulk insert.  The table
initially holds `preRow`; the model holds one rule; the (only) bulk insert
fails.  The call reports the insert error, but the committed table is EMPTY,
not the pre-save `[preRow]`: the transaction begun by `savePolicy` rolls back
only the inserts, because `truncateTable` was executed on the
non-transactional `db` handle (`src/internal_func.go` line 74) and its
delete-all had already taken effect. -/
theorem savePolicy_truncate_outside_tx :
    savePolicy [preRow] pmOne none (fun _ => some (Err.store 0)) none
      = (some (Err.store 0), []) ∧
    (savePolicy [preRow] pmOne none (fun _ => some (Err.store 0)) none).2 ≠ [preRow] := by
  refine ⟨by decide, by decide⟩

/-- C4: contract of the `Transaction` wrapper.  With `Begin` succeeding: the
caller always receives the callback's error (or, the callback succeeding, the
commit's error; or `nil` on full success) and never the reload error; whenever
the callback or the commit fails the transaction is rolled back, the engine's
reload hook is invoked and a failing reload is only logged; on success the
transaction commits with no rollback and no reload. -/
theorem transaction_reload_contract (cbErr commitErr reloadErr : Option Err) :
    ((Transaction none cbErr commitErr reloadErr).returned
      = match cbErr with
        | some e => some e
        | none => commitErr) ∧
    (cbErr = none → commitErr = none →
      Transaction none cbErr commitErr reloadErr
        = { returned := none, committed := true, rolledBack := false
            reloadInvoked := false, loggedReloadErr := none }) ∧
    (cbErr.isSome ∨ commitErr.isSome →
      (Transaction none cbErr commitErr reloadErr).rolledBack = true ∧
      (Transaction none cbErr commitErr reloadErr).reloadInvoked = true ∧
      (Transaction none cbErr commitErr reloadErr).committed = false ∧
      (Transaction none cbErr commitErr reloadErr).loggedReloadErr = reloadErr) ∧
    (∀ reloadErr2 : Option Err,
      (Transaction none cbErr commitErr reloadErr2).returned
        = (Transaction none cbErr commitErr reloadErr).returned) := by
  rcases cbErr with _ | e <;> rcases commitErr with _ | e2 <;>
    simp [Transaction, deferredRecover]

/-- Witness for `transaction_reload_contract`: a failing callback with a
failing reload - the caller still receives the callback's error, the rollback
and reload happened, and the reload error was only logged. -/
theorem transaction_reload_contract_witness :
    (Transaction none (some (Err.store 0)) none (some (Err.store 1))).returned
      = some (Err.store 0) ∧
    (Transaction none (some (Err.store 0)) none (some (Err.store 1))).rolledBack = true ∧
    (Transaction none (some (Err.store 0)) none (some (Err.store 1))).reloadInvoked = true ∧
    (Transaction none (some (Err.store 0)) none (some (Err.store 1))).loggedReloadErr
      = some (Err.store 1) := by
  obtain ⟨h1, _, h3, _⟩ :=
    transaction_reload_contract (some (Err.store 0)) none (some (Err.store 1))
  obtain ⟨ha, hb, _, hd⟩ := h3 (Or.inl (by decide))
  exact ⟨h1, ha, hb, hd⟩

/-- C9: every context-scoped operation returns the dedicated configuration
error `CtxWithoutDBError` (embedded as `Err.ctxWithoutDB`) when the context
holds no database handle under the adapter's key; no handle means no store is
reachable, so no store access occurs.  The error is distinct from the
validation, uniqueness and store errors. -/
theorem ctx_ops_require_db :
    (∀ m, LoadPolicyCtx none m = Except.error Err.ctxWithoutDB) ∧
    (∀ m fs, LoadFilteredPolicyCtx none m fs = Except.error Err.ctxWithoutDB) ∧
    (∀ pm tE cE cmE, SavePolicyCtx none pm tE cE cmE = Except.error Err.ctxWithoutDB) ∧
    (∀ sec pt rule, AddPolicyCtx none sec pt rule = Except.error Err.ctxWithoutDB) ∧
    (∀ sec pt rules, AddPoliciesCtx none sec pt rules = Except.error Err.ctxWithoutDB) ∧
    (∀ sec pt rule, RemovePolicyCtx none sec pt rule = Except.error Err.ctxWithoutDB) ∧
    (∀ sec pt rules dE,
      RemovePoliciesCtx none sec pt rules dE = Except.error Err.ctxWithoutDB) ∧
    (∀ sec pt fi vals,
      RemoveFilteredPolicyCtx none sec pt fi vals = Except.error Err.ctxWithoutDB) ∧
    (∀ sec pt oldR newR,
      UpdatePolicyCtx none sec pt oldR newR = Except.error Err.ctxWithoutDB) ∧
    (∀ sec pt oldRs newRs,
      UpdatePoliciesCtx none sec pt oldRs newRs = Except.error Err.ctxWithoutDB) ∧
    (∀ sec pt newRs fi vals,
      UpdateFilteredPoliciesCtx none sec pt newRs fi vals
        = Except.error Err.ctxWithoutDB) ∧
    (∀ bE cbE cmE rE,
      TransactionCtx none bE cbE cmE rE = Except.error Err.ctxWithoutDB) ∧
    (Err.ctxWithoutDB ≠ Err.queryFieldEmpty ∧ Err.ctxWithoutDB ≠ Err.uniqueViolation ∧
      ∀ k, Err.ctxWithoutDB ≠ Err.store k) := by
  refine ⟨fun _ => rfl, fun _ _ => rfl, fun _ _ _ _ => rfl, fun _ _ _ => rfl,
    fun _ _ _ => rfl, fun _ _ _ => rfl, fun _ _ _ _ => rfl, fun _ _ _ _ => rfl,
    fun _ _ _ _ => rfl, fun _ _ _ _ => rfl, fun _ _ _ _ _ => rfl, fun _ _ _ _ => rfl,
    by decide, by decide, fun k => by simp⟩

/-- Witness for `ctx_ops_require_db` at concrete arguments. -/
theorem ctx_ops_require_db_witness :
    LoadPolicyCtx none [] = Except.error Err.ctxWithoutDB ∧
    AddPolicyCtx none "p" "p" ["alice"] = Except.error Err.ctxWithoutDB ∧
    Err.ctxWithoutDB ≠ Err.store 0 :=
  ⟨ctx_ops_require_db.1 [], ctx_ops_require_db.2.2.2.1 "p" "p" ["alice"],
   ctx_ops_require_db.2.2.2.2.2.2.2.2.2.2.2.2.2.2 0⟩

end GormAdapter
